import Mathlib

/-!
Formal model of the sourcherrypick search controller.

The development embeds, over the rationals, the cost model of
`bayesian_optimization_engine.py`, the polling loop and the experiment
runner of `search_controller.py`, the noise interface of
`docker_monitor.py`, and the argument validation of `search_controller.py`.
Floating point numbers of the source are modelled as rationals, Python's
`int()` conversion as truncation toward zero, `float('inf')` as the top
element of `WithTop ℚ`, and an uncaught Python exception as the `error`
case of `Except`. Wall-clock time inside the polling loop is idealized:
condition checks are instantaneous and each `time.sleep(0.5)` advances the
clock by exactly half a second, so the elapsed time at the k-th check of
the loop is `k / 2` seconds.
-/

/-- Truncation toward zero on rationals: the model of Python's `int()`
conversion applied to a float. For non-negative arguments it is the floor,
for negative arguments minus the floor of the negation (the ceiling). -/
def pyInt (q : ℚ) : ℤ := if 0 ≤ q then ⌊q⌋ else -⌊-q⌋

namespace BayesianOptimizationEngine

/-- Pricing constant `COSTS['CPU']['unit']` of the engine: 1 core. -/
def cpuUnit : ℕ := 1

/-- Pricing constant `COSTS['CPU']['price']`: 100 price units per core-second. -/
def cpuPrice : ℕ := 100

/-- Pricing constant `COSTS['RAM']['unit']`: one megabyte, `1024**2` bytes. -/
def ramUnit : ℕ := 1024 ^ 2

/-- Pricing constant `COSTS['RAM']['price']`: 10 price units per MB-second. -/
def ramPrice : ℕ := 10

/-- The per-second rate `cpu_cost + ram_cost` of `BayesianOptimizationEngine.cost`:
`actual_cpu = int(cpu_used + cpu_used * cpu_epsilon / 100.0)`,
`actual_ram = int(ram_used + ram_used * ram_epsilon / 100.0)`,
`effective_cpu = actual_cpu / COSTS['CPU']['unit']`,
`effective_ram = int(actual_ram / COSTS['RAM']['unit'])`,
`cpu_cost = effective_cpu * COSTS['CPU']['price']`,
`ram_cost = effective_ram * COSTS['RAM']['price']`. -/
def costRate (cpu_used ram_used e_cpu e_ram : ℚ) : ℚ :=
  (pyInt (cpu_used + cpu_used * e_cpu / 100) : ℚ) / (cpuUnit : ℚ) * (cpuPrice : ℚ) +
  (pyInt ((pyInt (ram_used + ram_used * e_ram / 100) : ℚ) / (ramUnit : ℚ)) : ℚ) * (ramPrice : ℚ)

/-- The value `(cpu_cost + ram_cost) * total_time` computed by the cost method
on the non-sentinel branch. -/
def costBody (cpu_used ram_used total_time e_cpu e_ram : ℚ) : ℚ :=
  costRate cpu_used ram_used e_cpu e_ram * total_time

/-- The method `BayesianOptimizationEngine.cost`, with the two noise draws
(`cpu_epsilon`, `ram_epsilon`) passed explicitly. Returns `float('inf')`,
modelled as the top element, whenever `total_time < 0`. -/
def cost (cpu_used ram_used total_time e_cpu e_ram : ℚ) : WithTop ℚ :=
  if total_time < 0 then ⊤
  else ((costBody cpu_used ram_used total_time e_cpu e_ram : ℚ) : WithTop ℚ)

/-- The method `BayesianOptimizationEngine.cost` with its noise sampling made
explicit: `noise` is the stream of values produced by successive calls of
`docker_monitor.get_noise`, and `i` the number of draws made so far. The
second component of the result is the updated draw counter: the sentinel
branch returns before any call of `get_noise`; the normal branch calls it
twice, first for `cpu_epsilon` and then for `ram_epsilon`. -/
def costDraw (cpu_used ram_used total_time : ℚ) (noise : ℕ → ℚ) (i : ℕ) :
    WithTop ℚ × ℕ :=
  if total_time < 0 then (⊤, i)
  else (cost cpu_used ram_used total_time (noise i) (noise (i + 1)), i + 2)

end BayesianOptimizationEngine

/-- Reference algorithm for the cost function, stated as in the specification:
`+∞` for a negative elapsed time, otherwise
`(trunc(cpu_used + cpu_used*e_cpu/100) * 100 +
  trunc(trunc(memory_used + memory_used*e_mem/100) / 1048576) * 10) * elapsed_seconds`
with all truncations toward zero. -/
def costSpecReference (cpu_used memory_used elapsed_seconds e_cpu e_mem : ℚ) :
    WithTop ℚ :=
  if elapsed_seconds < 0 then ⊤
  else ((((pyInt (cpu_used + cpu_used * e_cpu / 100) : ℚ) * 100 +
      (pyInt ((pyInt (memory_used + memory_used * e_mem / 100) : ℚ) / 1048576) : ℚ) * 10) *
      elapsed_seconds : ℚ) : WithTop ℚ)

/-- The loop of `run_until`: at the k-th check (elapsed time `k / 2` seconds)
the loop exits if the polled condition `inactive` holds, continues while the
elapsed time is below `timeout`, and exits otherwise. Returns the index of the
exit check; `fuel` bounds the number of iterations and is chosen large enough
to never be exhausted. -/
def pollExitFrom (inactive : ℕ → Bool) (timeout : ℚ) : ℕ → ℕ → ℕ
  | 0, k => k
  | (fuel + 1), k =>
      if inactive k then k
      else if (k : ℚ) / 2 < timeout then pollExitFrom inactive timeout fuel (k + 1)
      else k

/-- Iteration bound for the polling loop: the loop always exits once the
elapsed time `k / 2` reaches `timeout`, which happens within this many checks. -/
def pollFuel (timeout : ℚ) : ℕ := (⌊2 * timeout⌋).toNat + 2

/-- Index of the check at which the polling loop of `run_until` exits. -/
def runUntilExit (inactive : ℕ → Bool) (timeout : ℚ) : ℕ :=
  pollExitFrom inactive timeout (pollFuel timeout) 0

/-- The function `run_until` of `search_controller.py`: run the polling loop,
then return False if the elapsed time strictly exceeds `timeout`
(`if time.time() - start > timeout: return False`) and True otherwise. -/
def run_until (inactive : ℕ → Bool) (timeout : ℚ) : Bool :=
  if (runUntilExit inactive timeout : ℚ) / 2 > timeout then false else true

/-- Observable interactions of one `run_experiment` call with the container
runtime. -/
inductive ContainerEvent
  | launched
  | polled
  | killed
  | logsFetched
  | stopped
  | removed
deriving DecidableEq

/-- Behaviour of the container runtime during one `run_experiment` call:
whether `controller.run_container` returns normally, the value of
`controller.not_running(container.name)` at the k-th poll check, the exit
code reported by `controller.container_exit_code`, the value drawn by
`random.randint(0, 1000)`, the value of `controller.still_running` at
cleanup, and whether `container.logs()` returns normally (a stand-in for any
exception raised inside the `try` block after the launch). -/
structure RunEnv where
  launchOk : Bool
  inactiveAt : ℕ → Bool
  exitCode : ℤ
  jitter : ℕ
  stillRunningAtCleanup : Bool
  logsOk : Bool

/-- The penalty `(max_time + random.randint(0,1000)) * -2` assigned by
`run_experiment` to a timed-out run or to a run with a nonzero exit code. -/
def penaltyValue (max_time : ℚ) (r : ℕ) : ℚ := (max_time + (r : ℚ)) * (-2)

/-- Poll events of the run: one condition check per loop index up to and
including the exit check. -/
def pollTrace (env : RunEnv) (max_time : ℚ) : List ContainerEvent :=
  List.replicate (runUntilExit env.inactiveAt max_time + 1) ContainerEvent.polled

/-- The `finally` block of `run_experiment`: stop the container if it is
still running, then remove it. -/
def cleanupTrace (env : RunEnv) : List ContainerEvent :=
  (if env.stillRunningAtCleanup then [ContainerEvent.stopped] else []) ++
    [ContainerEvent.removed]

/-- The function `run_experiment` of `search_controller.py`. The first
component is the returned value — `Except.error` models an exception escaping
the function (the launch call sits outside the `try` block; an exception
inside the `try` block passes through the `finally` cleanup and then
escapes). The second component is the ordered trace of container
interactions. On a timeout the container is killed (a failed kill is caught
and only logged); the returned value is the negated total time for a
successful run and the randomized penalty otherwise. -/
def runExperimentModel (env : RunEnv) (max_time : ℚ) :
    Except Unit ℚ × List ContainerEvent :=
  if env.launchOk = false then (Except.error (), [])
  else
    let in_time := run_until env.inactiveAt max_time
    let elapsed : ℚ := (runUntilExit env.inactiveAt max_time : ℚ) / 2
    let total_time : ℚ :=
      if in_time = false then penaltyValue max_time env.jitter
      else if env.exitCode = 0 then elapsed
      else penaltyValue max_time env.jitter
    let kills : List ContainerEvent :=
      if in_time = false then [ContainerEvent.killed] else []
    if env.logsOk = false then
      (Except.error (),
        ContainerEvent.launched :: (pollTrace env max_time ++ kills ++ cleanupTrace env))
    else
      (Except.ok (if total_time < 0 then total_time else total_time * (-1)),
        ContainerEvent.launched :: (pollTrace env max_time ++ kills ++
          (ContainerEvent.logsFetched :: cleanupTrace env)))

/-- Value returned by (or exception escaping from) `run_experiment`. -/
def runExperimentResult (env : RunEnv) (max_time : ℚ) : Except Unit ℚ :=
  (runExperimentModel env max_time).1

/-- Trace of container interactions of one `run_experiment` call. -/
def runExperimentTrace (env : RunEnv) (max_time : ℚ) : List ContainerEvent :=
  (runExperimentModel env max_time).2

/-- The observation sequence of the search loop, starting from evaluation
index `i`: the optimizer library evaluates the black-box function
`lambda cpu, ram: run_experiment(vm_controller, cpu, ram, sql_script,
time_limit)` at each proposed configuration and registers the returned value
as the target of that configuration. `envs` gives the container behaviour of
each successive evaluation. -/
def searchLoopObservationsAux (envs : ℕ → RunEnv) (max_time : ℚ) :
    List (ℚ × ℚ) → ℕ → List ((ℚ × ℚ) × Except Unit ℚ)
  | [], _ => []
  | p :: ps, i =>
      (p, runExperimentResult (envs i) max_time) ::
        searchLoopObservationsAux envs max_time ps (i + 1)

/-- Observations registered with the optimizer over a whole session: one pair
(proposed configuration, registered target) per proposal of the optimizer. -/
def searchLoopObservations (proposals : List (ℚ × ℚ)) (envs : ℕ → RunEnv)
    (max_time : ℚ) : List ((ℚ × ℚ) × Except Unit ℚ) :=
  searchLoopObservationsAux envs max_time proposals 0

/-- Command line arguments of `search_controller.py` relevant to validation:
`--cpu_limit` (float), `--memory_limit` (int bytes), `--time_limit` (int
seconds), `--iterations` (int), and whether the `--sql_script` path is an
existing file. -/
structure CliArgs where
  cpu_limit : ℚ
  memory_limit : ℤ
  time_limit : ℤ
  iterations : ℤ
  sql_script_isfile : Bool

/-- The validation performed by `parse_args`: negative values are rejected,
the script path must be a file, the cpu limit may not exceed the host cpu
count, the memory limit may not exceed the detected available memory minus
100 MB (the check is skipped when detection failed, reported as a negative
`available_memory`), the time limit is capped at one hour, and the iteration
count must lie in [1, 100]. Returns true when `parse_args` returns instead of
exiting. -/
def parse_args_accepts (a : CliArgs) (cpu_count : ℕ) (available_memory : ℤ) : Bool :=
  !(decide (a.cpu_limit < 0) || decide (a.time_limit < 0) || decide (a.memory_limit < 0)) &&
  a.sql_script_isfile &&
  !(decide (a.cpu_limit > (cpu_count : ℚ))) &&
  (decide (available_memory < 0) ||
    !(decide (a.memory_limit > available_memory - 100 * 1024 ^ 2))) &&
  !(decide (a.time_limit > 3600)) &&
  (decide (1 ≤ a.iterations) && decide (a.iterations ≤ 100))

/-- The search bounds of a session: cpu and memory ranges. -/
structure SearchBounds where
  min_cpu : ℚ
  max_cpu : ℚ
  min_ram : ℤ
  max_ram : ℤ

/-- The bounds handed by `main` to the optimization engine:
`min_cpu = min(args.cpu_limit, 0.1)`, `max_cpu = args.cpu_limit`,
`min_ram = min(args.memory_limit, 60*10**6)`, `max_ram = args.memory_limit`.
They are fixed at construction of the engine and never reassigned. -/
def sessionBounds (a : CliArgs) : SearchBounds :=
  ⟨min a.cpu_limit (1 / 10), a.cpu_limit,
    min a.memory_limit (60 * 10 ^ 6), a.memory_limit⟩

/-- Example runtime behaviour: the container becomes inactive at the third
poll check (elapsed time 1 s) and exits with code 0. -/
def envSuccessExample : RunEnv := ⟨true, fun k => decide (2 ≤ k), 0, 7, false, true⟩

/-- Example runtime behaviour: the container becomes inactive at the fifth
poll check (elapsed time 2 s) and exits with code 0. -/
def envLoopExample : RunEnv := ⟨true, fun k => decide (4 ≤ k), 0, 0, false, true⟩

/-- Example runtime behaviour: the container never becomes inactive; the
jitter draw is 5. -/
def envTimeoutA : RunEnv := ⟨true, fun _ => false, 1, 5, true, true⟩

/-- Second example runtime behaviour that never becomes inactive, with a
different exit code but the same jitter draw 5. -/
def envTimeoutB : RunEnv := ⟨true, fun _ => false, 2, 5, true, true⟩

/-- Example runtime behaviour where the launch call fails. -/
def envLaunchFailA : RunEnv := ⟨false, fun _ => false, 0, 0, false, true⟩

/-- Second example runtime behaviour where the launch call fails. -/
def envLaunchFailB : RunEnv := ⟨false, fun _ => true, 5, 9, true, false⟩

/-- Example runtime behaviour: immediately inactive, exit code 0, the
container still reported running at cleanup, and `container.logs()` raising. -/
def envCleanupExample : RunEnv := ⟨true, fun _ => true, 0, 0, true, false⟩

/-- Example command line: 2 cpus, 1 GB of memory, 10 s time limit,
5 iterations, an existing script file. -/
def cliExample : CliArgs := ⟨2, 10 ^ 9, 10, 5, true⟩

/-- Example command line with zero cpu and memory limits. -/
def cliZeroLimits : CliArgs := ⟨0, 0, 10, 5, true⟩

/-! Lemmas about truncation toward zero. -/

lemma pyInt_eq_ceil {q : ℚ} (h : ¬ 0 ≤ q) : pyInt q = ⌈q⌉ := by
  rw [pyInt, if_neg h, Int.floor_neg, neg_neg]

lemma pyInt_nonneg {q : ℚ} (h : 0 ≤ q) : 0 ≤ pyInt q := by
  rw [pyInt, if_pos h]
  exact Int.floor_nonneg.mpr h

lemma pyInt_mono {a b : ℚ} (h : a ≤ b) : pyInt a ≤ pyInt b := by
  by_cases ha : 0 ≤ a
  · rw [pyInt, if_pos ha, pyInt, if_pos (ha.trans h)]
    exact Int.floor_mono h
  · by_cases hb : 0 ≤ b
    · rw [pyInt, if_neg ha, pyInt, if_pos hb]
      have h1 : -⌊-a⌋ ≤ 0 := by
        have h2 : (0:ℚ) ≤ -a := by linarith [not_le.mp ha]
        have h3 := Int.floor_nonneg.mpr h2
        omega
      exact h1.trans (Int.floor_nonneg.mpr hb)
    · rw [pyInt, if_neg ha, pyInt, if_neg hb]
      have h4 : ⌊-b⌋ ≤ ⌊-a⌋ := Int.floor_mono (by linarith)
      omega

namespace BayesianOptimizationEngine

lemma noisy_measure_nonneg {x e : ℚ} (hx : 0 ≤ x) (he : -100 ≤ e) :
    0 ≤ x + x * e / 100 := by
  have h1 : (0:ℚ) ≤ 1 + e / 100 := by linarith
  have h2 : x + x * e / 100 = x * (1 + e / 100) := by ring
  rw [h2]
  exact mul_nonneg hx h1

lemma noisy_measure_mono {x y e : ℚ} (he : -100 ≤ e) (_hx : 0 ≤ x) (hxy : x ≤ y) :
    x + x * e / 100 ≤ y + y * e / 100 := by
  have h1 : (0:ℚ) ≤ 1 + e / 100 := by linarith
  have h2 : x * (1 + e / 100) ≤ y * (1 + e / 100) :=
    mul_le_mul_of_nonneg_right hxy h1
  nlinarith [h2]

lemma costRate_nonneg {cpu_used ram_used e_cpu e_ram : ℚ}
    (hc : 0 ≤ cpu_used) (hr : 0 ≤ ram_used)
    (he1 : -100 ≤ e_cpu) (he2 : -100 ≤ e_ram) :
    0 ≤ costRate cpu_used ram_used e_cpu e_ram := by
  have hcpu : (0:ℚ) ≤ (pyInt (cpu_used + cpu_used * e_cpu / 100) : ℚ) := by
    exact_mod_cast pyInt_nonneg (noisy_measure_nonneg hc he1)
  have hram0 : (0:ℚ) ≤ (pyInt (ram_used + ram_used * e_ram / 100) : ℚ) := by
    exact_mod_cast pyInt_nonneg (noisy_measure_nonneg hr he2)
  have hram : (0:ℚ) ≤
      (pyInt ((pyInt (ram_used + ram_used * e_ram / 100) : ℚ) / (ramUnit : ℚ)) : ℚ) := by
    have := pyInt_nonneg (q := (pyInt (ram_used + ram_used * e_ram / 100) : ℚ) / (ramUnit : ℚ))
      (div_nonneg hram0 (by norm_num [ramUnit]))
    exact_mod_cast this
  unfold costRate
  have h1 : (0:ℚ) ≤ (pyInt (cpu_used + cpu_used * e_cpu / 100) : ℚ) / (cpuUnit : ℚ) :=
    div_nonneg hcpu (by norm_num [cpuUnit])
  positivity

lemma costRate_mono {c c' r r' e_cpu e_ram : ℚ}
    (he1 : -100 ≤ e_cpu) (he2 : -100 ≤ e_ram)
    (hc0 : 0 ≤ c) (hr0 : 0 ≤ r) (hc : c ≤ c') (hr : r ≤ r') :
    costRate c r e_cpu e_ram ≤ costRate c' r' e_cpu e_ram := by
  have hcpu : (pyInt (c + c * e_cpu / 100) : ℚ) ≤ (pyInt (c' + c' * e_cpu / 100) : ℚ) := by
    exact_mod_cast pyInt_mono (noisy_measure_mono he1 hc0 hc)
  have hram0 : (pyInt (r + r * e_ram / 100) : ℚ) ≤ (pyInt (r' + r' * e_ram / 100) : ℚ) := by
    exact_mod_cast pyInt_mono (noisy_measure_mono he2 hr0 hr)
  have hram : (pyInt ((pyInt (r + r * e_ram / 100) : ℚ) / (ramUnit : ℚ)) : ℚ) ≤
      (pyInt ((pyInt (r' + r' * e_ram / 100) : ℚ) / (ramUnit : ℚ)) : ℚ) := by
    have hdiv : (pyInt (r + r * e_ram / 100) : ℚ) / (ramUnit : ℚ) ≤
        (pyInt (r' + r' * e_ram / 100) : ℚ) / (ramUnit : ℚ) :=
      div_le_div_of_nonneg_right hram0 (by norm_num [ramUnit])
    exact_mod_cast pyInt_mono hdiv
  unfold costRate
  have h1 : (pyInt (c + c * e_cpu / 100) : ℚ) / (cpuUnit : ℚ) ≤
      (pyInt (c' + c' * e_cpu / 100) : ℚ) / (cpuUnit : ℚ) :=
    div_le_div_of_nonneg_right hcpu (by norm_num [cpuUnit])
  have h2 : (0:ℚ) < (cpuPrice : ℚ) := by norm_num [cpuPrice]
  have h3 : (0:ℚ) < (ramPrice : ℚ) := by norm_num [ramPrice]
  nlinarith [h1, hram, h2, h3]

end BayesianOptimizationEngine

/-! Lemmas about the polling loop. -/

lemma pollExitFrom_le (inactive : ℕ → Bool) (timeout : ℚ) :
    ∀ (fuel k : ℕ), k ≤ pollExitFrom inactive timeout fuel k := by
  intro fuel
  induction fuel with
  | zero => intro k; simp [pollExitFrom]
  | succ fuel ih =>
    intro k
    rw [pollExitFrom]
    split
    · exact le_rfl
    · split
      · exact (Nat.le_succ k).trans (ih (k + 1))
      · exact le_rfl

lemma pollExitFrom_exitCond (inactive : ℕ → Bool) (timeout : ℚ) :
    ∀ (fuel k : ℕ), timeout ≤ ((k + fuel : ℕ) : ℚ) / 2 →
      inactive (pollExitFrom inactive timeout fuel k) = true ∨
        timeout ≤ ((pollExitFrom inactive timeout fuel k : ℕ) : ℚ) / 2 := by
  intro fuel
  induction fuel with
  | zero =>
    intro k h
    right
    simpa [pollExitFrom] using h
  | succ fuel ih =>
    intro k h
    rw [pollExitFrom]
    split
    · left; assumption
    · split
      · exact ih (k + 1) (by push_cast at h ⊢; linarith)
      · right
        linarith [not_lt.mp (by assumption : ¬ (k : ℚ) / 2 < timeout)]

lemma pollExitFrom_min (inactive : ℕ → Bool) (timeout : ℚ) :
    ∀ (fuel k j : ℕ), k ≤ j → j < pollExitFrom inactive timeout fuel k →
      inactive j = false ∧ (j : ℚ) / 2 < timeout := by
  intro fuel
  induction fuel with
  | zero =>
    intro k j hk hj
    rw [pollExitFrom] at hj
    omega
  | succ fuel ih =>
    intro k j hk hj
    rw [pollExitFrom] at hj
    by_cases hik : inactive k = true
    · rw [if_pos hik] at hj; omega
    · rw [if_neg hik] at hj
      by_cases hkt : (k : ℚ) / 2 < timeout
      · rw [if_pos hkt] at hj
        rcases Nat.eq_or_lt_of_le hk with heq | hlt
        · subst heq
          exact ⟨Bool.not_eq_true _ ▸ by simpa using hik, hkt⟩
        · exact ih (k + 1) j hlt hj
      · rw [if_neg hkt] at hj; omega

lemma pollFuel_spec (timeout : ℚ) :
    timeout ≤ ((0 + pollFuel timeout : ℕ) : ℚ) / 2 := by
  rw [pollFuel]
  have h1 : (2 * timeout - 1 : ℚ) < (⌊2 * timeout⌋ : ℚ) := Int.sub_one_lt_floor _
  have h2 : ((⌊2 * timeout⌋ : ℤ) : ℚ) ≤ ((⌊2 * timeout⌋.toNat : ℕ) : ℚ) := by
    exact_mod_cast Int.self_le_toNat _
  push_cast
  linarith

lemma runUntilExit_exitCond (inactive : ℕ → Bool) (timeout : ℚ) :
    inactive (runUntilExit inactive timeout) = true ∨
      timeout ≤ (runUntilExit inactive timeout : ℚ) / 2 := by
  have := pollExitFrom_exitCond inactive timeout (pollFuel timeout) 0 (pollFuel_spec timeout)
  simpa [runUntilExit] using this

lemma runUntilExit_min (inactive : ℕ → Bool) (timeout : ℚ) (j : ℕ)
    (hj : j < runUntilExit inactive timeout) :
    inactive j = false ∧ (j : ℚ) / 2 < timeout :=
  pollExitFrom_min inactive timeout (pollFuel timeout) 0 j (Nat.zero_le j) hj

lemma run_until_false_iff (inactive : ℕ → Bool) (timeout : ℚ) :
    run_until inactive timeout = false ↔
      timeout < (runUntilExit inactive timeout : ℚ) / 2 := by
  rw [run_until]
  split
  · simpa using (by assumption : (runUntilExit inactive timeout : ℚ) / 2 > timeout)
  · simpa using not_lt.mp (by assumption : ¬ (runUntilExit inactive timeout : ℚ) / 2 > timeout)

/-- C5 (amended): when some check sees the condition true strictly before the
timeout, `run_until` returns True. When the condition never becomes true, the
loop exits with elapsed time within one poll interval above the timeout
(`timeout ≤ exit elapsed < timeout + 0.5`), and `run_until` returns False
exactly when that exit elapsed time strictly exceeds the timeout — if a check
falls exactly on the timeout boundary, `run_until` returns True even though
the condition never held. -/
theorem run_until_timeout_semantics (inactive : ℕ → Bool) (timeout : ℚ)
    (h : 0 ≤ timeout) :
    ((∃ k, inactive k = true ∧ (k : ℚ) / 2 < timeout) →
      run_until inactive timeout = true) ∧
    ((∀ k, inactive k = false) →
      timeout ≤ (runUntilExit inactive timeout : ℚ) / 2 ∧
      (runUntilExit inactive timeout : ℚ) / 2 < timeout + 1 / 2 ∧
      (run_until inactive timeout = false ↔
        timeout < (runUntilExit inactive timeout : ℚ) / 2)) := by
  constructor
  · rintro ⟨k, hk, hkt⟩
    have hle : (runUntilExit inactive timeout : ℚ) / 2 ≤ timeout := by
      rcases le_or_lt (runUntilExit inactive timeout) k with hK | hK
      · have : ((runUntilExit inactive timeout : ℕ) : ℚ) ≤ (k : ℚ) := by exact_mod_cast hK
        linarith
      · rcases runUntilExit_min inactive timeout k hK with ⟨hfalse, _⟩
        rw [hk] at hfalse
        cases hfalse
    rw [run_until, if_neg (not_lt.mpr hle)]
  · intro hall
    have hge : timeout ≤ (runUntilExit inactive timeout : ℚ) / 2 := by
      rcases runUntilExit_exitCond inactive timeout with hstop | hge
      · rw [hall _] at hstop; cases hstop
      · exact hge
    refine ⟨hge, ?_, run_until_false_iff inactive timeout⟩
    rcases Nat.eq_zero_or_pos (runUntilExit inactive timeout) with h0 | hpos
    · rw [h0]
      push_cast
      linarith
    · obtain ⟨j, hj⟩ : ∃ j, runUntilExit inactive timeout = j + 1 :=
        ⟨runUntilExit inactive timeout - 1, by omega⟩
      rcases runUntilExit_min inactive timeout j (by omega) with ⟨_, hjt⟩
      rw [hj]
      push_cast
      linarith

/-- Witness for C5 (amended) with a condition that is never true and timeout
0.3 s. -/
theorem run_until_timeout_semantics_inst :
    ((∃ k, (fun _ : ℕ => false) k = true ∧ (k : ℚ) / 2 < 3 / 10) →
      run_until (fun _ => false) (3 / 10) = true) ∧
    ((∀ k, (fun _ : ℕ => false) k = false) →
      (3 / 10 : ℚ) ≤ (runUntilExit (fun _ => false) (3 / 10) : ℚ) / 2 ∧
      (runUntilExit (fun _ => false) (3 / 10) : ℚ) / 2 < 3 / 10 + 1 / 2 ∧
      (run_until (fun _ => false) (3 / 10) = false ↔
        (3 / 10 : ℚ) < (runUntilExit (fun _ => false) (3 / 10) : ℚ) / 2)) :=
  run_until_timeout_semantics (fun _ => false) (3 / 10) (by norm_num)

/-- Counterexample to C5 as stated: with a condition that is never true and a
timeout of 1 second, the loop exits with elapsed time exactly 1 = timeout, and
`run_until` returns True, although the claim requires True only when the
condition became true before the timeout (and False when the timeout elapsed
with the condition never true). -/
theorem run_until_true_at_exact_timeout_boundary :
    run_until (fun _ => false) 1 = true := by
  norm_num [run_until, runUntilExit, pollFuel, pollExitFrom, Int.toNat_ofNat]

/-- C2: the cost method equals the reference algorithm. When
`elapsed_seconds < 0` it returns `+∞` immediately with the noise draw counter
unchanged (no sample drawn); when `elapsed_seconds ≥ 0` it draws exactly two
noise samples, the first for CPU and the second for memory, and its value is
`(trunc(cpu_used + cpu_used*e_cpu/100) * 100 +
trunc(trunc(memory_used + memory_used*e_mem/100) / 1048576) * 10) * elapsed_seconds`
with truncation toward zero. -/
theorem cost_matches_reference_algorithm
    (cpu_used ram_used total_time : ℚ) (noise : ℕ → ℚ) (i : ℕ) :
    (total_time < 0 →
      BayesianOptimizationEngine.costDraw cpu_used ram_used total_time noise i = (⊤, i)) ∧
    (0 ≤ total_time →
      BayesianOptimizationEngine.costDraw cpu_used ram_used total_time noise i =
        (costSpecReference cpu_used ram_used total_time (noise i) (noise (i + 1)), i + 2)) := by
  constructor
  · intro h
    rw [BayesianOptimizationEngine.costDraw, if_pos h]
  · intro h
    have hnlt : ¬ total_time < 0 := not_lt.mpr h
    rw [BayesianOptimizationEngine.costDraw, if_neg hnlt]
    rw [BayesianOptimizationEngine.cost, if_neg hnlt]
    rw [costSpecReference, if_neg hnlt]
    congr 1
    rw [BayesianOptimizationEngine.costBody, BayesianOptimizationEngine.costRate]
    norm_num [BayesianOptimizationEngine.cpuUnit, BayesianOptimizationEngine.cpuPrice,
      BayesianOptimizationEngine.ramUnit, BayesianOptimizationEngine.ramPrice]

/-- Witness for C2 at a concrete input: elapsed time 2, cpu 3, memory 5 MB,
noise stream constantly zero, draw counter starting at 0. -/
theorem cost_matches_reference_algorithm_inst :
    BayesianOptimizationEngine.costDraw 3 5242880 2 (fun _ => 0) 0 =
      (costSpecReference 3 5242880 2 0 0, 2) ∧
    costSpecReference 3 5242880 2 0 0 = ((700 : ℚ) : WithTop ℚ) := by
  constructor
  · exact (cost_matches_reference_algorithm 3 5242880 2 (fun _ => 0) 0).2 (by norm_num)
  · rw [costSpecReference, if_neg (by norm_num)]
    norm_num [pyInt]

/-- C3 (amended): for non-negative cpu, memory and elapsed time the cost is
always finite (never the `+∞` sentinel, and no exception is possible), and it
is non-negative provided both noise samples are at least `-100` percent; a
noise sample below `-100` can make the cost negative. -/
theorem cost_finite_and_conditionally_nonneg
    (cpu_used ram_used total_time e_cpu e_ram : ℚ)
    (hc : 0 ≤ cpu_used) (hr : 0 ≤ ram_used) (ht : 0 ≤ total_time) :
    BayesianOptimizationEngine.cost cpu_used ram_used total_time e_cpu e_ram ≠ ⊤ ∧
    (-100 ≤ e_cpu → -100 ≤ e_ram →
      ((0 : ℚ) : WithTop ℚ) ≤
        BayesianOptimizationEngine.cost cpu_used ram_used total_time e_cpu e_ram) := by
  have hnlt : ¬ total_time < 0 := not_lt.mpr ht
  constructor
  · rw [BayesianOptimizationEngine.cost, if_neg hnlt]
    exact WithTop.coe_ne_top
  · intro he1 he2
    rw [BayesianOptimizationEngine.cost, if_neg hnlt]
    rw [WithTop.coe_le_coe]
    exact mul_nonneg (BayesianOptimizationEngine.costRate_nonneg hc hr he1 he2) ht

/-- Witness for C3 (amended) at cpu 1, memory 2097152 bytes, elapsed time 3,
noise samples 50 and -50. -/
theorem cost_finite_and_conditionally_nonneg_inst :
    BayesianOptimizationEngine.cost 1 2097152 3 50 (-50) ≠ ⊤ ∧
    (-100 ≤ (50:ℚ) → -100 ≤ (-50:ℚ) →
      ((0 : ℚ) : WithTop ℚ) ≤ BayesianOptimizationEngine.cost 1 2097152 3 50 (-50)) :=
  cost_finite_and_conditionally_nonneg 1 2097152 3 50 (-50)
    (by norm_num) (by norm_num) (by norm_num)

/-- Counterexample to C3 as stated: with cpu 1, memory 0, elapsed time 1 and
the possible noise pair (-200, 0) — the Gaussian noise source can produce any
real value — the cost is -100, which is negative. -/
theorem cost_negative_under_large_negative_noise :
    BayesianOptimizationEngine.cost 1 0 1 (-200) 0 = ((-100 : ℚ) : WithTop ℚ) ∧
    ((-100 : ℚ) : WithTop ℚ) < ((0 : ℚ) : WithTop ℚ) := by
  constructor
  · rw [BayesianOptimizationEngine.cost, if_neg (by norm_num)]
    rw [BayesianOptimizationEngine.costBody, BayesianOptimizationEngine.costRate]
    norm_num [pyInt, BayesianOptimizationEngine.cpuUnit, BayesianOptimizationEngine.cpuPrice,
      BayesianOptimizationEngine.ramUnit, BayesianOptimizationEngine.ramPrice]
  · rw [WithTop.coe_lt_coe]
    norm_num

/-- C6 (amended): holding the two noise samples fixed and both at least `-100`
percent, the cost is monotone non-decreasing when any of cpu, memory or
elapsed time increases within the non-negative range. -/
theorem cost_monotone_with_bounded_noise
    (c c' r r' t t' e_cpu e_ram : ℚ)
    (he1 : -100 ≤ e_cpu) (he2 : -100 ≤ e_ram)
    (hc0 : 0 ≤ c) (hr0 : 0 ≤ r) (ht0 : 0 ≤ t)
    (hc : c ≤ c') (hr : r ≤ r') (ht : t ≤ t') :
    BayesianOptimizationEngine.cost c r t e_cpu e_ram ≤
      BayesianOptimizationEngine.cost c' r' t' e_cpu e_ram := by
  have hnlt : ¬ t < 0 := not_lt.mpr ht0
  have hnlt' : ¬ t' < 0 := not_lt.mpr (ht0.trans ht)
  rw [BayesianOptimizationEngine.cost, if_neg hnlt,
    BayesianOptimizationEngine.cost, if_neg hnlt']
  rw [WithTop.coe_le_coe]
  rw [BayesianOptimizationEngine.costBody, BayesianOptimizationEngine.costBody]
  exact mul_le_mul (BayesianOptimizationEngine.costRate_mono he1 he2 hc0 hr0 hc hr) ht ht0
    ((BayesianOptimizationEngine.costRate_nonneg hc0 hr0 he1 he2).trans
      (BayesianOptimizationEngine.costRate_mono he1 he2 hc0 hr0 hc hr))

/-- Witness for C6 (amended): cpu 1 → 2, memory 1048576 → 2097152, elapsed
time 1 → 4, noise samples 10 and -10. -/
theorem cost_monotone_with_bounded_noise_inst :
    BayesianOptimizationEngine.cost 1 1048576 1 10 (-10) ≤
      BayesianOptimizationEngine.cost 2 2097152 4 10 (-10) :=
  cost_monotone_with_bounded_noise 1 2 1048576 2097152 1 4 10 (-10)
    (by norm_num) (by norm_num) (by norm_num) (by norm_num) (by norm_num)
    (by norm_num) (by norm_num) (by norm_num)

/-- Counterexample to C6 as stated: with the noise pair (-200, 0) held fixed,
increasing cpu from 0 to 2 (memory 0, elapsed time 1 fixed) strictly
decreases the cost, from 0 to -200. -/
theorem cost_not_monotone_in_cpu :
    BayesianOptimizationEngine.cost 2 0 1 (-200) 0 <
      BayesianOptimizationEngine.cost 0 0 1 (-200) 0 := by
  rw [BayesianOptimizationEngine.cost, if_neg (by norm_num),
    BayesianOptimizationEngine.cost, if_neg (by norm_num)]
  rw [WithTop.coe_lt_coe]
  rw [BayesianOptimizationEngine.costBody, BayesianOptimizationEngine.costBody,
    BayesianOptimizationEngine.costRate, BayesianOptimizationEngine.costRate]
  norm_num [pyInt, BayesianOptimizationEngine.cpuUnit, BayesianOptimizationEngine.cpuPrice,
    BayesianOptimizationEngine.ramUnit, BayesianOptimizationEngine.ramPrice]

/-! Lemmas about the experiment runner. -/

lemma nonpos_return (p : ℚ) (hp : p ≤ 0) : (if p < 0 then p else p * (-1)) = p := by
  split_ifs with h
  · rfl
  · have h0 : p = 0 := le_antisymm hp (not_lt.mp h)
    rw [h0]
    ring

lemma penaltyValue_nonpos {max_time : ℚ} (hmt : 0 ≤ max_time) (r : ℕ) :
    penaltyValue max_time r ≤ 0 := by
  rw [penaltyValue]
  have h0 : (0:ℚ) ≤ max_time + (r : ℚ) := add_nonneg hmt (Nat.cast_nonneg r)
  nlinarith

lemma runExperimentResult_char (env : RunEnv) (max_time : ℚ)
    (hL : env.launchOk = true) (hlog : env.logsOk = true) (hmt : 0 ≤ max_time) :
    ∃ v : ℚ, runExperimentResult env max_time = Except.ok v ∧ v ≤ 0 ∧
      (run_until env.inactiveAt max_time = true ∧ env.exitCode = 0 →
        v = -((runUntilExit env.inactiveAt max_time : ℚ) / 2)) ∧
      (run_until env.inactiveAt max_time = false ∨ ¬ env.exitCode = 0 →
        v = penaltyValue max_time env.jitter) := by
  have hpen := penaltyValue_nonpos hmt env.jitter
  rw [runExperimentResult, runExperimentModel, if_neg (by rw [hL]; simp),
    if_neg (by rw [hlog]; simp)]
  by_cases hin : run_until env.inactiveAt max_time = false
  · rw [if_pos hin]
    refine ⟨penaltyValue max_time env.jitter, ?_, hpen, ?_, ?_⟩
    · rw [nonpos_return _ hpen]
    · rintro ⟨h1, -⟩
      rw [hin] at h1
      cases h1
    · intro _
      rfl
  · rw [if_neg hin]
    by_cases hex : env.exitCode = 0
    · rw [if_pos hex]
      have helap : (0:ℚ) ≤ (runUntilExit env.inactiveAt max_time : ℚ) / 2 := by
        positivity
      refine ⟨-((runUntilExit env.inactiveAt max_time : ℚ) / 2), ?_, by linarith, ?_, ?_⟩
      · rw [if_neg (not_lt.mpr helap)]
        ring_nf
      · intro _
        rfl
      · rintro (h1 | h1)
        · exact absurd h1 hin
        · exact absurd hex h1
    · rw [if_neg hex]
      refine ⟨penaltyValue max_time env.jitter, ?_, hpen, ?_, ?_⟩
      · rw [nonpos_return _ hpen]
      · rintro ⟨-, h1⟩
        exact absurd h1 hex
      · intro _
        rfl

/-- C10: whenever the launch succeeds and no exception interrupts the run,
`run_experiment` returns a non-positive value: the negated measured elapsed
time when the container exits with code 0 within `max_time`, and the
randomized penalty `(max_time + r) * -2` — the identical formula for both
failure classes — when the run times out or exits with a nonzero code. -/
theorem run_experiment_returns_nonpositive (env : RunEnv) (max_time : ℚ)
    (hL : env.launchOk = true) (hlog : env.logsOk = true) (hmt : 0 ≤ max_time) :
    ∃ v : ℚ, runExperimentResult env max_time = Except.ok v ∧ v ≤ 0 ∧
      (run_until env.inactiveAt max_time = true ∧ env.exitCode = 0 →
        v = -((runUntilExit env.inactiveAt max_time : ℚ) / 2)) ∧
      (run_until env.inactiveAt max_time = false ∨ ¬ env.exitCode = 0 →
        v = penaltyValue max_time env.jitter) :=
  runExperimentResult_char env max_time hL hlog hmt

/-- Witness for C10: concrete successful run that becomes inactive after 1 s
with exit code 0 under a 10 s budget. -/
theorem run_experiment_returns_nonpositive_inst :
    ∃ v : ℚ, runExperimentResult envSuccessExample 10 = Except.ok v ∧ v ≤ 0 ∧
      (run_until envSuccessExample.inactiveAt 10 = true ∧
          envSuccessExample.exitCode = 0 →
        v = -((runUntilExit envSuccessExample.inactiveAt 10 : ℚ) / 2)) ∧
      (run_until envSuccessExample.inactiveAt 10 = false ∨
          ¬ envSuccessExample.exitCode = 0 →
        v = penaltyValue 10 envSuccessExample.jitter) :=
  run_experiment_returns_nonpositive envSuccessExample 10 rfl rfl (by norm_num)

/-- C7: for every evaluation whose launch succeeds — on success, nonzero
exit, timeout, and also when an exception is raised inside the try block
after the launch — the scoped cleanup runs exactly once: the trace contains
exactly one removal, preceded by exactly one stop when the container is
still reported running at cleanup and none otherwise. -/
theorem cleanup_runs_exactly_once (env : RunEnv) (max_time : ℚ)
    (hL : env.launchOk = true) :
    (runExperimentTrace env max_time).count ContainerEvent.removed = 1 ∧
    (runExperimentTrace env max_time).count ContainerEvent.stopped =
      (if env.stillRunningAtCleanup then 1 else 0) := by
  rw [runExperimentTrace, runExperimentModel, if_neg (by rw [hL]; simp)]
  by_cases hlog : env.logsOk = false <;>
    by_cases hin : run_until env.inactiveAt max_time = false <;>
      by_cases hsr : env.stillRunningAtCleanup = true <;>
        simp [hlog, hin, hsr, pollTrace, cleanupTrace, List.count_cons,
          List.count_append, List.count_replicate]

/-- Witness for C7: a run that is immediately inactive, still reported
running at cleanup, and whose log retrieval raises. -/
theorem cleanup_runs_exactly_once_inst :
    (runExperimentTrace envCleanupExample 1).count ContainerEvent.removed = 1 ∧
    (runExperimentTrace envCleanupExample 1).count ContainerEvent.stopped =
      (if envCleanupExample.stillRunningAtCleanup then 1 else 0) :=
  cleanup_runs_exactly_once envCleanupExample 1 rfl

/-- C4 (amended): when the launch call fails, the exception propagates out of
`run_experiment` — the session sees the raised error rather than a
LAUNCH_FAILED outcome — and the trace is empty: the poll loop is never
entered, no penalty is costed and no cleanup runs. -/
theorem launch_failure_propagates (env : RunEnv) (max_time : ℚ)
    (h : env.launchOk = false) :
    runExperimentModel env max_time = (Except.error (), []) := by
  rw [runExperimentModel, if_pos h]

/-- Witness for C4 (amended) at a concrete failing launch. -/
theorem launch_failure_propagates_inst :
    runExperimentModel envLaunchFailA 3 = (Except.error (), []) :=
  launch_failure_propagates envLaunchFailA 3 rfl

/-- Counterexample to C4 as stated: at a concrete failing launch the
evaluator does not return any outcome — the error escapes the evaluator
boundary — and nothing is polled, costed or cleaned up. -/
theorem launch_failure_not_captured :
    runExperimentResult envLaunchFailB 10 = Except.error () ∧
    runExperimentTrace envLaunchFailB 10 = [] := by
  constructor <;> rfl

/-- C8 (amended): two timed-out or failed evaluations with the same time
budget receive equal randomized penalties exactly when their jitter draws
coincide — the jitter makes ties unlikely, not impossible. -/
theorem penalty_tie_iff_equal_jitter (max_time : ℚ) (r1 r2 : ℕ) :
    penaltyValue max_time r1 = penaltyValue max_time r2 ↔ r1 = r2 := by
  rw [penaltyValue, penaltyValue]
  constructor
  · intro h
    have h' : (r1 : ℚ) = (r2 : ℚ) := by linarith
    exact_mod_cast h'
  · intro h
    rw [h]

/-- Counterexample to C8 as stated: two distinct evaluations that both time
out under a 0.3 s budget and both draw jitter 5 produce the same penalty
-53/5 — the randomized penalties of two failed runs can tie exactly. -/
theorem penalty_values_can_tie :
    runExperimentResult envTimeoutA (3 / 10) = Except.ok (-53 / 5) ∧
    runExperimentResult envTimeoutB (3 / 10) = Except.ok (-53 / 5) := by
  have hK : runUntilExit (fun _ => false) (3 / 10) = 1 := by
    norm_num [runUntilExit, pollFuel, pollExitFrom, Int.toNat_ofNat]
  have hrun : run_until (fun _ => false) (3 / 10) = false := by
    rw [run_until, hK]
    norm_num
  constructor <;>
    · rw [runExperimentResult, runExperimentModel]
      simp only [envTimeoutA, envTimeoutB]
      rw [if_neg (by simp)]
      simp only [hrun, hK]
      rw [if_neg (by simp)]
      simp only [if_pos rfl]
      rw [penaltyValue]
      norm_num

/-! Lemmas about the search loop and the argument validation. -/

lemma searchLoopObservationsAux_getElem (envs : ℕ → RunEnv) (max_time : ℚ) :
    ∀ (ps : List (ℚ × ℚ)) (j i : ℕ),
      (searchLoopObservationsAux envs max_time ps j)[i]? =
        (ps[i]?).map (fun p => (p, runExperimentResult (envs (j + i)) max_time)) := by
  intro ps
  induction ps with
  | nil =>
    intro j i
    simp [searchLoopObservationsAux]
  | cons p ps ih =>
    intro j i
    cases i with
    | zero =>
      simp [searchLoopObservationsAux]
    | succ i =>
      have harith : j + 1 + i = j + (i + 1) := by omega
      simp [searchLoopObservationsAux, ih (j + 1) i, harith]

/-- C1 (amended): the target registered with the optimizer for the i-th
proposed configuration is the raw return value of `run_experiment` — a
non-positive number (negated elapsed time or randomized penalty) — and not a
value of the cost method, which the search loop never invokes; the cost
method is only applied once, after the loop, to report the best observation. -/
theorem registered_value_is_run_experiment
    (proposals : List (ℚ × ℚ)) (envs : ℕ → RunEnv) (max_time : ℚ)
    (i : ℕ) (p : ℚ × ℚ) (hp : proposals[i]? = some p)
    (hL : (envs i).launchOk = true) (hlog : (envs i).logsOk = true)
    (hmt : 0 ≤ max_time) :
    ∃ v : ℚ,
      (searchLoopObservations proposals envs max_time)[i]? =
        some (p, Except.ok v) ∧ v ≤ 0 := by
  obtain ⟨v, hv, hv0, -, -⟩ := runExperimentResult_char (envs i) max_time hL hlog hmt
  refine ⟨v, ?_, hv0⟩
  rw [searchLoopObservations, searchLoopObservationsAux_getElem envs max_time proposals 0 i]
  simp [hp, hv]

/-- Witness for C1 (amended): a single proposal evaluated under a runtime
that is immediately inactive with exit code 0. -/
theorem registered_value_is_run_experiment_inst :
    ∃ v : ℚ,
      (searchLoopObservations [(1, 2)] (fun _ => envSuccessExample) 5)[0]? =
        some ((1, 2), Except.ok v) ∧ v ≤ 0 :=
  registered_value_is_run_experiment [(1, 2)] (fun _ => envSuccessExample) 5
    0 (1, 2) rfl rfl rfl (by norm_num)

/-- Counterexample to C1 as stated: in a one-iteration session whose run
becomes inactive after 2 s with exit code 0 under a 10 s budget, the value
registered with the optimizer for configuration (cpu 1, ram 0) is -2, while
the cost computed by the cost method from that evaluation's resource usage
(cpu 1, ram 0) and elapsed time 2 (noise samples 0, 0) is 200 — the
registered observation is not the cost. -/
theorem registered_value_not_cost :
    searchLoopObservations [(1, 0)] (fun _ => envLoopExample) 10 =
      [((1, 0), Except.ok (-2))] ∧
    BayesianOptimizationEngine.cost 1 0 2 0 0 = ((200 : ℚ) : WithTop ℚ) ∧
    (-2 : ℚ) ≠ (200 : ℚ) := by
  have hK : runUntilExit (fun k => decide (4 ≤ k)) 10 = 4 := by
    norm_num [runUntilExit, pollFuel, pollExitFrom, Int.toNat_ofNat]
  have hrun : run_until (fun k => decide (4 ≤ k)) 10 = true := by
    rw [run_until, hK]
    norm_num
  refine ⟨?_, ?_, by norm_num⟩
  · rw [searchLoopObservations, searchLoopObservationsAux, searchLoopObservationsAux]
    rw [runExperimentResult, runExperimentModel]
    simp only [envLoopExample]
    rw [if_neg (by simp)]
    simp only [hrun, hK]
    norm_num
  · rw [BayesianOptimizationEngine.cost, if_neg (by norm_num)]
    rw [BayesianOptimizationEngine.costBody, BayesianOptimizationEngine.costRate]
    norm_num [pyInt, BayesianOptimizationEngine.cpuUnit,
      BayesianOptimizationEngine.cpuPrice, BayesianOptimizationEngine.ramUnit,
      BayesianOptimizationEngine.ramPrice]

/-- C9 (amended): for every command line accepted by `parse_args`, the bounds
handed to the engine satisfy `min ≤ max` for both ranges and `min ≥ 0`;
negative limits are rejected, but a zero limit is accepted, so `min > 0`
holds only under the additional assumption that the corresponding limit is
strictly positive. The bounds are fixed at engine construction and never
mutated. -/
theorem accepted_bounds_ordered_nonneg (a : CliArgs) (cpu_count : ℕ)
    (available_memory : ℤ)
    (h : parse_args_accepts a cpu_count available_memory = true) :
    (sessionBounds a).min_cpu ≤ (sessionBounds a).max_cpu ∧
    (sessionBounds a).min_ram ≤ (sessionBounds a).max_ram ∧
    0 ≤ (sessionBounds a).min_cpu ∧
    0 ≤ (sessionBounds a).min_ram ∧
    (0 < a.cpu_limit → 0 < (sessionBounds a).min_cpu) ∧
    (0 < a.memory_limit → 0 < (sessionBounds a).min_ram) := by
  have hcpu : ¬ a.cpu_limit < 0 := by
    intro hc
    simp [parse_args_accepts, hc] at h
  have hmem : ¬ a.memory_limit < 0 := by
    intro hc
    simp [parse_args_accepts, hc] at h
  simp only [sessionBounds]
  refine ⟨min_le_left _ _, min_le_left _ _, ?_, ?_, ?_, ?_⟩
  · exact le_min (not_lt.mp hcpu) (by norm_num)
  · exact le_min (not_lt.mp hmem) (by norm_num)
  · intro h0
    exact lt_min h0 (by norm_num)
  · intro h0
    exact lt_min h0 (by norm_num)

/-- Witness for C9 (amended) at a concrete accepted command line (host with
4 cpus, memory detection failed). -/
theorem accepted_bounds_ordered_nonneg_inst :
    (sessionBounds cliExample).min_cpu ≤ (sessionBounds cliExample).max_cpu ∧
    (sessionBounds cliExample).min_ram ≤ (sessionBounds cliExample).max_ram ∧
    0 ≤ (sessionBounds cliExample).min_cpu ∧
    0 ≤ (sessionBounds cliExample).min_ram ∧
    (0 < cliExample.cpu_limit → 0 < (sessionBounds cliExample).min_cpu) ∧
    (0 < cliExample.memory_limit → 0 < (sessionBounds cliExample).min_ram) :=
  accepted_bounds_ordered_nonneg cliExample 4 (-1)
    (by norm_num [parse_args_accepts, cliExample])

/-- Counterexample to C9 as stated: the command line with cpu limit 0 and
memory limit 0 passes validation (only strictly negative values are
rejected), yet the resulting bounds have `min_cpu = 0` and `min_ram = 0`,
violating `min > 0`. -/
theorem zero_cpu_limit_accepted :
    parse_args_accepts cliZeroLimits 4 (10 ^ 9) = true ∧
    (sessionBounds cliZeroLimits).min_cpu = 0 ∧
    (sessionBounds cliZeroLimits).min_ram = 0 := by
  refine ⟨by norm_num [parse_args_accepts, cliZeroLimits], ?_, ?_⟩
  · rw [sessionBounds]
    simp [cliZeroLimits]
  · rw [sessionBounds]
    simp [cliZeroLimits]
